import Mathlib

set_option maxRecDepth 16000

/-!
Verification of the housenumber sanitizer
(`src/nominatim_db/tokenizer/sanitizers/clean_housenumbers.py`).

The transform is embedded shallowly: strings are Lean strings over their
character lists, with the Unicode decimal-digit and digit-property tables
embedded explicitly so that the regex class `\d`, `str.isdigit` and `int`
have their real (Unicode-aware) semantics; Python's unbounded non-negative
integers are `Nat`; and the float true division of the range-size test is
modelled by its exact overflow condition together with exact rational
comparison (which agrees with the float comparison against 10 for every
step the program derives).  The three runtime failures —
`ZeroDivisionError` for a step-0 directive, `OverflowError` for a quotient
beyond the double range, and `ValueError` from `int` on a digit-property
token without a decimal value — are modelled by `Option`, with `none`
standing for a raised exception.
-/

/-- Modelled from the spec: the Address Item value type of the repository's
`PlaceName` class (its module is not among the provided sources).  `name` is
the string payload ("value"), `kind` the role tag, and `suffix` stands for
the opaque extra attributes that the copy-with-override operation preserves
verbatim. -/
structure PlaceName where
  name : String
  kind : String
  suffix : String
deriving DecidableEq, Repr

/-- Modelled from the spec: copy-with-override on Address Items.  A `some`
argument overrides the corresponding field, `none` keeps the original; the
opaque attribute is always preserved. -/
def PlaceName.clone (p : PlaceName) (kind : Option String) (name : Option String) : PlaceName :=
  { name := name.getD p.name, kind := kind.getD p.kind, suffix := p.suffix }

/-- Modelled from the spec: the Address Record handed to the transform, with
its ordered `names` and `address` sequences of Address Items. -/
structure ProcessInfo where
  names : List PlaceName
  address : List PlaceName
deriving DecidableEq, Repr

/-- The configuration bound by `_HousenumberSanitizer.__init__`: the
`filter-kind` predicate, the delimiter splitter, the `convert-to-name`
predicate and the `expand-interpolations` flag.  The generic pattern
compiler and option reader are external collaborators, so the bound results
are kept abstract as functions. -/
structure HousenumberSanitizer where
  filter_kind : String → Bool
  split : String → List String
  filter_name : String → Bool
  expand_interpolations : Bool

/-- Splitting a character list at every occurrence of a separator
character, keeping empty pieces: the semantics of Python's
`re.split` on a character class (and of `str.split` on a single
character). -/
def splitChars (seps : List Char) : List Char → List (List Char)
  | [] => [[]]
  | c :: cs =>
    if c ∈ seps then
      [] :: splitChars seps cs
    else
      match splitChars seps cs with
      | [] => [[c]]
      | t :: ts => (c :: t) :: ts

/-- String-level splitting on a set of separator characters, keeping empty
pieces. -/
def pySplit (seps : List Char) (s : String) : List String :=
  (splitChars seps s.data).map String.mk

/-- The Unicode decimal-digit (general category Nd) code point ranges:
each entry is an aligned run of ten code points carrying the decimal
values 0-9 in order.  The regex class `\d` of this module matches exactly
these characters, and `int` accepts exactly strings of them. -/
def ndRanges : List (Nat × Nat) :=
  [(48, 57), (1632, 1641), (1776, 1785), (1984, 1993), (2406, 2415),
  (2534, 2543), (2662, 2671), (2790, 2799), (2918, 2927), (3046, 3055),
  (3174, 3183), (3302, 3311), (3430, 3439), (3558, 3567), (3664, 3673),
  (3792, 3801), (3872, 3881), (4160, 4169), (4240, 4249), (6112, 6121),
  (6160, 6169), (6470, 6479), (6608, 6617), (6784, 6793), (6800, 6809),
  (6992, 7001), (7088, 7097), (7232, 7241), (7248, 7257), (42528, 42537),
  (43216, 43225), (43264, 43273), (43472, 43481), (43504, 43513),
  (43600, 43609), (44016, 44025), (65296, 65305), (66720, 66729),
  (68912, 68921), (69734, 69743), (69872, 69881), (69942, 69951),
  (70096, 70105), (70384, 70393), (70736, 70745), (70864, 70873),
  (71248, 71257), (71360, 71369), (71472, 71481), (71904, 71913),
  (72016, 72025), (72784, 72793), (73040, 73049), (73120, 73129),
  (92768, 92777), (92864, 92873), (93008, 93017), (120782, 120791),
  (120792, 120801), (120802, 120811), (120812, 120821), (120822, 120831),
  (123200, 123209), (123632, 123641), (125264, 125273), (130032, 130041)]

/-- Code point ranges of the remaining characters with Unicode property
Numeric_Type=Digit (superscript and subscript digits, circled digits and
similar): `str.isdigit` is true of them, but `int` rejects them with a
`ValueError`. -/
def digitExtraRanges : List (Nat × Nat) :=
  [(178, 179), (185, 185), (4969, 4977), (6618, 6618), (8304, 8304),
  (8308, 8313), (8320, 8329), (9312, 9320), (9332, 9340), (9352, 9360),
  (9450, 9450), (9461, 9469), (9471, 9471), (10102, 10110), (10112, 10120),
  (10122, 10130), (68160, 68163), (69216, 69224), (69714, 69722),
  (127232, 127242)]

/-- The Unicode decimal value of a character: `some v` exactly for the
category-Nd decimal digits — the characters `\d` matches and `int`
parses. -/
def charDecimal (c : Char) : Option Nat :=
  match ndRanges.find? (fun r => decide (r.1 ≤ c.toNat) && decide (c.toNat ≤ r.2)) with
  | some r => some (c.toNat - r.1)
  | Option.none => Option.none

/-- Python's per-character digit property (`str.isdigit`): Numeric_Type
Decimal or Digit.  Strictly wider than having a decimal value. -/
def pyCharIsDigit (c : Char) : Bool :=
  (charDecimal c).isSome ||
    digitExtraRanges.any (fun r => decide (r.1 ≤ c.toNat) && decide (c.toNat ≤ r.2))

/-- `s` is non-empty and every character is a Unicode decimal digit: the
semantics of the regex piece `\d+`. -/
def isDigits (s : String) : Bool :=
  !s.data.isEmpty && s.data.all (fun c => (charDecimal c).isSome)

/-- Python's `str.isdigit`: non-empty and every character has the digit
property.  Wider than `isDigits`: it also accepts characters such as the
superscript digits, which `int` cannot parse. -/
def pyStrIsDigit (s : String) : Bool :=
  !s.data.isEmpty && s.data.all pyCharIsDigit

/-- Numeric value of a string of Unicode decimal digits: the semantics of
Python's `int` on the `\d`-guaranteed inputs of this module. -/
def strToNat (s : String) : Nat :=
  s.data.foldl (fun n c => n * 10 + (charDecimal c).getD 0) 0

/-- Python's `int` on a bare token: the numeric value exactly when the
token is a non-empty string of Unicode decimal digits, otherwise a raised
`ValueError`, modelled as `none`.  (Signs and surrounding whitespace
cannot reach this module's call sites, which guard with `str.isdigit` or
`\d`.) -/
def pyInt? (s : String) : Option Nat :=
  if isDigits s then some (strToNat s) else Option.none

/-- CPython's int-by-int true division computes the correctly rounded
double and raises `OverflowError` exactly when the rounded magnitude
exceeds the largest double; with round-half-to-even that happens iff
the exact magnitude of `num / den` is at least `2 ^ 1024 - 2 ^ 970`
(for a positive denominator). -/
def pyDivOverflow (num : Int) (den : Nat) : Bool :=
  decide ((2 ^ 1024 - 2 ^ 970) * den ≤ num.natAbs)

/-- `RANGE_REGEX.fullmatch`: the value fully matches one or more digits, a
hyphen, one or more digits. -/
def rangeFullmatch (s : String) : Bool :=
  match pySplit ['-'] s with
  | [a, b] => isDigits a && isDigits b
  | _ => false

/-- The interpolation directive held by the local `itype` after the
resolution block of `__call__`: `disabled` is Python's `None`, `step n` an
integer step, `odd`/`even` the two parity tokens. -/
inductive Directive where
  | disabled
  | step (n : Nat)
  | odd
  | even
deriving DecidableEq, Repr

/-- The `step` local of `_expand_range`: the integer itself for an integer
directive, 2 otherwise. -/
def stepOf (itype : Directive) : Nat :=
  match itype with
  | Directive.step n => n
  | _ => 2

/-- The parity adjustment of `_expand_range`: under `even` an odd first
endpoint, and under `odd` an even first endpoint, is incremented by one. -/
def adjustFirst (itype : Directive) (first : Nat) : Nat :=
  match itype with
  | Directive.even => if first % 2 = 1 then first + 1 else first
  | Directive.odd => if first % 2 = 0 then first + 1 else first
  | _ => first

/-- Python's `range(start, stop, step)` for a positive step: the ascending
integers `start, start + step, …` strictly below `stop`. -/
def rangeList (start stop step : Nat) : List Nat :=
  (List.range ((stop - start + step - 1) / step)).map (fun i => start + i * step)

/-- `_HousenumberSanitizer._expand_range`.  The value is split at the
hyphen and both endpoints parsed; the size test computes
`(last + 1 - first) / step` with Python float true division: a step of 0
raises `ZeroDivisionError` and a quotient magnitude in the double overflow
range raises `OverflowError`, both modelled as `none`.  Below the overflow
bound the float comparison against 10 coincides with the exact rational
comparison for every step the program derives (1 to 9: a non-equal
quotient within half an ulp of 10 would need `|num - 10 * step| < 1`,
impossible for integers), so the comparison is stated with `mkRat`, exact
rational division. -/
def expandRange (itype : Directive) (hnr : String) : Option (List Nat) :=
  match pySplit ['-'] hnr with
  | [a, b] =>
    let first := adjustFirst itype (strToNat a)
    let step := stepOf itype
    if step = 0 then
      Option.none
    else if pyDivOverflow ((strToNat b : Int) + 1 - (first : Int)) step then
      Option.none
    else if mkRat ((strToNat b : Int) + 1 - (first : Int)) step < 10 then
      some (rangeList first (strToNat b + 1) step)
    else
      some []
  | _ => Option.none

/-- The directive-resolution block of `__call__`, applied to the value
token of the interpolation item: `all` maps to step 1; a single
`str.isdigit` character is handed to `int`, which yields its decimal
value or — for a digit-property character without a decimal value, such
as a superscript digit — raises `ValueError` (`none`); `odd`/`even` stay
parity markers; anything else is disabled. -/
def resolveItype (t : String) : Option Directive :=
  if t = "all" then some (Directive.step 1)
  else if t.length == 1 && pyStrIsDigit t then (pyInt? t).map Directive.step
  else if t = "odd" then some Directive.odd
  else if t = "even" then some Directive.even
  else some Directive.disabled

/-- The value token of the first address item of kind `interpolation`, if
any: `next((i.name for i in obj.address if i.kind == 'interpolation'), None)`. -/
def firstInterpolationToken (address : List PlaceName) : Option String :=
  (address.find? (fun i => i.kind == "interpolation")).map PlaceName.name

/-- The directive derivation for one record: disabled when interpolation
expansion is switched off or no interpolation item exists, otherwise the
resolution of the first interpolation token; `none` when resolution
raises `ValueError`. -/
def HousenumberSanitizer.deriveItype? (c : HousenumberSanitizer) (address : List PlaceName) :
    Option Directive :=
  if c.expand_interpolations then
    match firstInterpolationToken address with
    | some t => resolveItype t
    | Option.none => some Directive.disabled
  else some Directive.disabled

/-- The directive governing the rebuild loop of a call whose derivation
did not raise. -/
def HousenumberSanitizer.deriveItype (c : HousenumberSanitizer) (address : List PlaceName) :
    Directive :=
  (c.deriveItype? address).getD Directive.disabled

/-- `_HousenumberSanitizer._regularize`: the default pass-through extension
point, yielding its token unchanged. -/
def regularize (hnr : String) : List String := [hnr]

/-- `_HousenumberSanitizer.sanitize`: split the value on the configured
delimiters, drop empty pieces, and regularize each surviving token. -/
def HousenumberSanitizer.sanitize (c : HousenumberSanitizer) (value : String) : List String :=
  (c.split value).flatMap (fun hnr => if hnr = "" then [] else regularize hnr)

/-- The tail of the housenumber branch of `__call__` (reached when range
expansion did not apply or produced nothing): either reclassify the item
into `names`, or split its value and emit one housenumber per token.  The
pair is (items for `address`, items for `names`). -/
def HousenumberSanitizer.convertOrSplit (c : HousenumberSanitizer) (item : PlaceName) :
    List PlaceName × List PlaceName :=
  if c.filter_name item.name then
    ([], [item.clone (some "housenumber") Option.none])
  else
    ((c.sanitize item.name).map (fun n => item.clone (some "housenumber") (some n)), [])

/-- One iteration of the rebuild loop of `__call__` on a single address
item, returning the contributions to the new address sequence and to the
names sequence, or `none` when the iteration raises. -/
def HousenumberSanitizer.processItem (c : HousenumberSanitizer) (itype : Directive)
    (item : PlaceName) : Option (List PlaceName × List PlaceName) :=
  if c.filter_kind item.kind then
    if itype ≠ Directive.disabled ∧ rangeFullmatch item.name = true then
      match expandRange itype item.name with
      | some hnrs =>
        if hnrs = [] then
          some (c.convertOrSplit item)
        else
          some (hnrs.map (fun hnr => item.clone (some "housenumber") (some (toString hnr))), [])
      | Option.none => Option.none
    else
      some (c.convertOrSplit item)
  else if item.kind = "interpolation" then
    some ([], [])
  else
    some ([item], [])

/-- The whole rebuild loop of `__call__` over the address sequence,
concatenating the per-item contributions in order. -/
def HousenumberSanitizer.processAll (c : HousenumberSanitizer) (itype : Directive) :
    List PlaceName → Option (List PlaceName × List PlaceName)
  | [] => some ([], [])
  | item :: rest =>
    match c.processItem itype item, c.processAll itype rest with
    | some (a1, n1), some (a2, n2) => some (a1 ++ a2, n1 ++ n2)
    | _, _ => Option.none

/-- `_HousenumberSanitizer.__call__`: an empty address sequence returns the
record untouched; otherwise the directive is derived (which may raise),
the address sequence rebuilt, the collected name items appended to
`names`, and `address` replaced wholesale.  `none` models an escaping
runtime exception. -/
def HousenumberSanitizer.call (c : HousenumberSanitizer) (obj : ProcessInfo) :
    Option ProcessInfo :=
  if obj.address = [] then some obj
  else
    match c.deriveItype? obj.address with
    | Option.none => Option.none
    | some itype =>
      match c.processAll itype obj.address with
      | some (addr, nms) => some { names := obj.names ++ nms, address := addr }
      | Option.none => Option.none

/-- Modelled from the spec: the splitter built by the external
configuration resolver for the default delimiter set (comma, semicolon). -/
def defaultSplit : String → List String := pySplit [',', ';']

/-- Modelled from the spec: the `filter-kind` predicate built from the
default pattern list, matching exactly the kind `housenumber`. -/
def defaultFilterKind : String → Bool := fun k => k == "housenumber"

/-- A sanitizer with every option left at its default: kinds matching
`housenumber`, comma/semicolon delimiters, no name conversion, expansion
enabled. -/
def cfgDefault : HousenumberSanitizer :=
  { filter_kind := defaultFilterKind
    split := defaultSplit
    filter_name := fun _ => false
    expand_interpolations := true }

/-- A sanitizer whose `filter-kind` patterns match every kind (for example
the configured pattern `.*`), with the other options at their defaults. -/
def cfgAllKinds : HousenumberSanitizer :=
  { filter_kind := fun _ => true
    split := defaultSplit
    filter_name := fun _ => false
    expand_interpolations := true }

/-- A sanitizer with `convert-to-name` configured to fully match the value
`private`, everything else at its default. -/
def cfgConvert : HousenumberSanitizer :=
  { filter_kind := defaultFilterKind
    split := defaultSplit
    filter_name := fun v => v == "private"
    expand_interpolations := true }

/-- A 310-digit range endpoint, 10^309: dividing it by any step from 1
to 9 exceeds the double range, so the float division in `_expand_range`
raises `OverflowError` on ranges with this endpoint. -/
def bigEndpoint : String :=
  "1000000000000000000000000000000000000000000000000000000000000000000000000000000000000000000000000000000000000000000000000000000000000000000000000000000000000000000000000000000000000000000000000000000000000000000000000000000000000000000000000000000000000000000000000000000000000000000000000000000000000000000000"

/-- An ascending range whose last endpoint is `bigEndpoint`. -/
def bigRangeAsc : String := "2-" ++ bigEndpoint

/-- A descending range whose first endpoint is `bigEndpoint`. -/
def bigRangeDesc : String := bigEndpoint ++ "-5"

/-! Helper lemmas about `rangeList`. -/

theorem rangeList_eq_nil {start stop step : Nat} (h : stop ≤ start) :
    rangeList start stop step = [] := by
  unfold rangeList
  have h1 : stop - start = 0 := Nat.sub_eq_zero_of_le h
  rw [h1]
  rcases Nat.eq_zero_or_pos step with hs | hs
  · subst hs; simp
  · have h2 : (0 + step - 1) / step = 0 := Nat.div_eq_of_lt (by omega)
    rw [h2]; simp

theorem mem_rangeList {start stop step x : Nat} (hstep : 0 < step) :
    x ∈ rangeList start stop step ↔ ∃ i, x = start + i * step ∧ x < stop := by
  unfold rangeList
  rw [List.mem_map]
  constructor
  · rintro ⟨i, hi, rfl⟩
    rw [List.mem_range] at hi
    refine ⟨i, rfl, ?_⟩
    have h2 : i + 1 ≤ (stop - start + step - 1) / step := hi
    rw [Nat.le_div_iff_mul_le hstep] at h2
    have h3 : i * step + step ≤ stop - start + step - 1 := by
      have : (i + 1) * step = i * step + step := by ring
      rw [this] at h2; exact h2
    generalize i * step = A at h3 ⊢
    omega
  · rintro ⟨i, rfl, hlt⟩
    refine ⟨i, ?_, rfl⟩
    rw [List.mem_range]
    show i + 1 ≤ (stop - start + step - 1) / step
    rw [Nat.le_div_iff_mul_le hstep]
    have h4 : (i + 1) * step = i * step + step := by ring
    rw [h4]
    generalize i * step = A at hlt ⊢
    omega

theorem rangeList_pairwise {start stop step : Nat} (hstep : 0 < step) :
    (rangeList start stop step).Pairwise (· < ·) := by
  unfold rangeList
  refine List.pairwise_map.mpr ?_
  exact (List.pairwise_lt_range _).imp
    (fun hab => Nat.add_lt_add_left (mul_lt_mul_of_pos_right hab hstep) start)

/-! Helper lemmas about `splitChars`. -/

theorem splitChars_ne_nil (seps : List Char) (cs : List Char) : splitChars seps cs ≠ [] := by
  cases cs with
  | nil => simp [splitChars]
  | cons c cs =>
    unfold splitChars
    split
    · simp
    · cases h : splitChars seps cs with
      | nil => simp
      | cons t ts => simp

theorem splitChars_singleton (seps : List Char) :
    ∀ cs l : List Char, splitChars seps cs = [l] → l = cs := by
  intro cs
  induction cs with
  | nil =>
    intro l h
    simp [splitChars] at h
    exact h
  | cons c cs ih =>
    intro l h
    unfold splitChars at h
    split at h
    · simp at h
      exact absurd h.2 (splitChars_ne_nil seps cs)
    · cases h2 : splitChars seps cs with
      | nil => exact absurd h2 (splitChars_ne_nil seps cs)
      | cons t ts =>
        rw [h2] at h
        simp at h
        obtain ⟨h3, h4⟩ := h
        subst h4
        have h5 := ih t h2
        rw [← h3, h5]

theorem splitChars_pair (seps : List Char) :
    ∀ cs l1 l2 : List Char, splitChars seps cs = [l1, l2] →
      ∃ sep, sep ∈ seps ∧ cs = l1 ++ sep :: l2 := by
  intro cs
  induction cs with
  | nil => intro l1 l2 h; simp [splitChars] at h
  | cons c cs ih =>
    intro l1 l2 h
    unfold splitChars at h
    split at h
    · rename_i hc
      simp at h
      obtain ⟨h1, h2⟩ := h
      have h3 := splitChars_singleton seps cs l2 h2
      subst h1
      subst h3
      exact ⟨c, hc, rfl⟩
    · cases h2 : splitChars seps cs with
      | nil => exact absurd h2 (splitChars_ne_nil seps cs)
      | cons t ts =>
        rw [h2] at h
        simp at h
        obtain ⟨ha, hb⟩ := h
        subst hb
        obtain ⟨sep, hs, hcs⟩ := ih t l2 h2
        refine ⟨sep, hs, ?_⟩
        rw [← ha, hcs]
        simp

theorem splitChars_no_sep (seps : List Char) :
    ∀ cs : List Char, (∀ c ∈ cs, c ∉ seps) → splitChars seps cs = [cs] := by
  intro cs
  induction cs with
  | nil => intro _; rfl
  | cons c cs ih =>
    intro h
    unfold splitChars
    rw [if_neg (h c (List.mem_cons_self c cs))]
    rw [ih (fun x hx => h x (List.mem_cons_of_mem _ hx))]

theorem pySplit_pair (seps : List Char) (s a b : String)
    (h : pySplit seps s = [a, b]) :
    ∃ sep, sep ∈ seps ∧ s.data = a.data ++ sep :: b.data := by
  unfold pySplit at h
  cases h2 : splitChars seps s.data with
  | nil => exact absurd h2 (splitChars_ne_nil seps s.data)
  | cons t ts =>
    rw [h2] at h
    cases ts with
    | nil => simp at h
    | cons t2 ts2 =>
      cases ts2 with
      | nil =>
        simp at h
        obtain ⟨hta, htb⟩ := h
        obtain ⟨sep, hs, hcs⟩ := splitChars_pair seps s.data t t2 h2
        refine ⟨sep, hs, ?_⟩
        rw [hcs, ← hta, ← htb]
      | cons t3 ts3 => simp at h

/-! Helper lemmas about the transform. -/

theorem pair_eq_fst {α β : Type} {x : α × β} {a : α} {b : β} (h : x = (a, b)) : a = x.1 := by
  rw [h]

theorem pair_eq_snd {α β : Type} {x : α × β} {a : α} {b : β} (h : x = (a, b)) : b = x.2 := by
  rw [h]

theorem expandRange_isSome (d : Directive) (hnr : String)
    (hr : rangeFullmatch hnr = true) (hs : stepOf d ≠ 0)
    (hov : ∀ sa sb, pySplit ['-'] hnr = [sa, sb] →
      pyDivOverflow ((strToNat sb : Int) + 1 - (adjustFirst d (strToNat sa) : Int))
        (stepOf d) = false) :
    ∃ l, expandRange d hnr = some l := by
  unfold rangeFullmatch at hr
  unfold expandRange
  cases h : pySplit ['-'] hnr with
  | nil => rw [h] at hr; simp at hr
  | cons a rest =>
    cases rest with
    | nil => rw [h] at hr; simp at hr
    | cons b rest2 =>
      cases rest2 with
      | nil =>
        simp only [h]
        rw [if_neg hs, if_neg (by simp [hov a b h])]
        split
        · exact ⟨_, rfl⟩
        · exact ⟨_, rfl⟩
      | cons x xs => rw [h] at hr; simp at hr

theorem processItem_isSome (c : HousenumberSanitizer) (d : Directive) (item : PlaceName)
    (hs : stepOf d ≠ 0)
    (hov : c.filter_kind item.kind = true → rangeFullmatch item.name = true →
      ∀ sa sb, pySplit ['-'] item.name = [sa, sb] →
      pyDivOverflow ((strToNat sb : Int) + 1 - (adjustFirst d (strToNat sa) : Int))
        (stepOf d) = false) :
    ∃ p, c.processItem d item = some p := by
  rw [← Option.isSome_iff_exists]
  unfold HousenumberSanitizer.processItem
  split
  · rename_i hkt
    split
    · rename_i hcond
      obtain ⟨l, hl⟩ := expandRange_isSome d item.name hcond.2 hs (hov hkt hcond.2)
      rw [hl]
      by_cases he : l = []
      · simp [he]
      · simp [he]
    · rfl
  · split
    · rfl
    · rfl

theorem processAll_isSome (c : HousenumberSanitizer) (d : Directive)
    (hs : stepOf d ≠ 0) :
    ∀ addr, (∀ item ∈ addr,
      c.filter_kind item.kind = true → rangeFullmatch item.name = true →
      ∀ sa sb, pySplit ['-'] item.name = [sa, sb] →
      pyDivOverflow ((strToNat sb : Int) + 1 - (adjustFirst d (strToNat sa) : Int))
        (stepOf d) = false) →
    ∃ p, c.processAll d addr = some p := by
  intro addr
  induction addr with
  | nil => intro _; exact ⟨([], []), rfl⟩
  | cons item rest ih =>
    intro hov
    obtain ⟨⟨a1, n1⟩, h1⟩ :=
      processItem_isSome c d item hs (hov item (List.mem_cons_self item rest))
    obtain ⟨⟨a2, n2⟩, h2⟩ := ih (fun it hit => hov it (List.mem_cons_of_mem _ hit))
    refine ⟨(a1 ++ a2, n1 ++ n2), ?_⟩
    unfold HousenumberSanitizer.processAll
    rw [h1, h2]

theorem processAll_cons (c : HousenumberSanitizer) (d : Directive) (item : PlaceName)
    (rest : List PlaceName) :
    c.processAll d (item :: rest) =
      match c.processItem d item, c.processAll d rest with
      | some (a1, n1), some (a2, n2) => some (a1 ++ a2, n1 ++ n2)
      | _, _ => Option.none := rfl

theorem convertOrSplit_addr_kinds (c : HousenumberSanitizer) (item : PlaceName) :
    ∀ it ∈ (c.convertOrSplit item).1, it.kind = "housenumber" := by
  unfold HousenumberSanitizer.convertOrSplit
  split
  · simp
  · intro it hit
    simp only [List.mem_map] at hit
    obtain ⟨x, _, h⟩ := hit
    rw [← h]
    rfl

theorem processItem_addr_kinds (c : HousenumberSanitizer) (d : Directive) (item : PlaceName)
    (a n : List PlaceName) (h : c.processItem d item = some (a, n)) :
    ∀ it ∈ a, it.kind ≠ "interpolation" := by
  have hcv : ∀ it ∈ (c.convertOrSplit item).1, it.kind ≠ "interpolation" := by
    intro it hit
    rw [convertOrSplit_addr_kinds c item it hit]
    decide
  unfold HousenumberSanitizer.processItem at h
  split at h
  · split at h
    · split at h
      · split at h
        · have ha := pair_eq_fst (Option.some.inj h)
          subst ha
          exact hcv
        · have ha := pair_eq_fst (Option.some.inj h)
          subst ha
          intro it hit
          simp only [List.mem_map] at hit
          obtain ⟨x, _, hx⟩ := hit
          rw [← hx]
          show ("housenumber" : String) ≠ "interpolation"
          decide
      · exact absurd h (by simp)
    · have ha := pair_eq_fst (Option.some.inj h)
      subst ha
      exact hcv
  · split at h
    · have ha := pair_eq_fst (Option.some.inj h)
      subst ha
      intro it hit
      simp at hit
    · rename_i hki
      have ha := pair_eq_fst (Option.some.inj h)
      subst ha
      intro it hit
      simp only [List.mem_singleton] at hit
      subst hit
      exact hki

theorem processAll_addr_kinds (c : HousenumberSanitizer) (d : Directive) :
    ∀ addr A N, c.processAll d addr = some (A, N) →
      ∀ it ∈ A, it.kind ≠ "interpolation" := by
  intro addr
  induction addr with
  | nil =>
    intro A N h it hit
    have ha := pair_eq_fst (Option.some.inj h)
    subst ha
    simp at hit
  | cons item rest ih =>
    intro A N h it hit
    rw [processAll_cons] at h
    cases h1 : c.processItem d item with
    | none => rw [h1] at h; simp at h
    | some p1 =>
      obtain ⟨a1, n1⟩ := p1
      cases h2 : c.processAll d rest with
      | none => rw [h1, h2] at h; simp at h
      | some p2 =>
        obtain ⟨a2, n2⟩ := p2
        rw [h1, h2] at h
        have ha := pair_eq_fst (Option.some.inj h)
        subst ha
        rcases List.mem_append.mp hit with hm | hm
        · exact processItem_addr_kinds c d item a1 n1 h1 it hm
        · exact ih a2 n2 h2 it hm

theorem processAll_flatten (c : HousenumberSanitizer) (d : Directive) :
    ∀ addr A N, c.processAll d addr = some (A, N) →
      ∃ L, A = L.flatten ∧
        List.Forall₂ (fun it l => ∃ nm, c.processItem d it = some (l, nm)) addr L := by
  intro addr
  induction addr with
  | nil =>
    intro A N h
    have ha := pair_eq_fst (Option.some.inj h)
    subst ha
    exact ⟨[], rfl, List.Forall₂.nil⟩
  | cons item rest ih =>
    intro A N h
    rw [processAll_cons] at h
    cases h1 : c.processItem d item with
    | none => rw [h1] at h; simp at h
    | some p1 =>
      obtain ⟨a1, n1⟩ := p1
      cases h2 : c.processAll d rest with
      | none => rw [h1, h2] at h; simp at h
      | some p2 =>
        obtain ⟨a2, n2⟩ := p2
        rw [h1, h2] at h
        have ha := pair_eq_fst (Option.some.inj h)
        subst ha
        obtain ⟨L, hL1, hL2⟩ := ih a2 n2 h2
        refine ⟨a1 :: L, ?_, List.Forall₂.cons ⟨n1, h1⟩ hL2⟩
        rw [List.flatten_cons, hL1]

theorem processAll_fixpoint (c : HousenumberSanitizer) (d : Directive) :
    ∀ addr, (∀ it ∈ addr, c.processItem d it = some ([it], [])) →
      c.processAll d addr = some (addr, []) := by
  intro addr
  induction addr with
  | nil => intro _; rfl
  | cons item rest ih =>
    intro h
    rw [processAll_cons, h item (List.mem_cons_self item rest),
      ih (fun it hit => h it (List.mem_cons_of_mem _ hit))]
    rfl

theorem deriveItype_of_no_interp (c : HousenumberSanitizer) (addr : List PlaceName)
    (h : ∀ it ∈ addr, it.kind ≠ "interpolation") :
    c.deriveItype? addr = some Directive.disabled := by
  unfold HousenumberSanitizer.deriveItype?
  split
  · have h2 : firstInterpolationToken addr = Option.none := by
      unfold firstInterpolationToken
      rw [List.find?_eq_none.mpr ?_]
      · rfl
      · intro x hx
        simp only [beq_iff_eq]
        exact h x hx
    rw [h2]
  · rfl

theorem call_eq_some (c : HousenumberSanitizer) (obj o1 : ProcessInfo)
    (h : c.call obj = some o1) :
    (obj.address = [] ∧ o1 = obj) ∨
    (∃ d A N, c.deriveItype? obj.address = some d ∧
      c.processAll d obj.address = some (A, N) ∧
      o1 = { names := obj.names ++ N, address := A }) := by
  unfold HousenumberSanitizer.call at h
  split at h
  · rename_i he
    exact Or.inl ⟨he, (Option.some.inj h).symm⟩
  · cases hder : c.deriveItype? obj.address with
    | none => rw [hder] at h; simp at h
    | some d0 =>
      rw [hder] at h
      have h2 : (match c.processAll d0 obj.address with
          | some (addr, nms) => some { names := obj.names ++ nms, address := addr }
          | Option.none => (Option.none : Option ProcessInfo)) = some o1 := h
      cases hp : c.processAll d0 obj.address with
      | none => rw [hp] at h2; simp at h2
      | some p =>
        obtain ⟨A, N⟩ := p
        rw [hp] at h2
        have h3 : some ({ names := obj.names ++ N, address := A } : ProcessInfo) = some o1 := h2
        exact Or.inr ⟨d0, A, N, rfl, hp, (Option.some.inj h3).symm⟩

theorem convertOrSplit_name (c : HousenumberSanitizer) (item : PlaceName)
    (hn : c.filter_name item.name = true) :
    c.convertOrSplit item = ([], [⟨item.name, "housenumber", item.suffix⟩]) := by
  unfold HousenumberSanitizer.convertOrSplit
  simp [hn, PlaceName.clone]

theorem convertOrSplit_split (c : HousenumberSanitizer) (item : PlaceName)
    (hn : c.filter_name item.name = false) :
    c.convertOrSplit item =
      ((c.sanitize item.name).map (fun n => item.clone (some "housenumber") (some n)), []) := by
  unfold HousenumberSanitizer.convertOrSplit
  simp [hn]

theorem processItem_range (c : HousenumberSanitizer) (d : Directive) (item : PlaceName)
    (hnrs : List Nat)
    (hk : c.filter_kind item.kind = true)
    (hd : d ≠ Directive.disabled)
    (hr : rangeFullmatch item.name = true)
    (he : expandRange d item.name = some hnrs)
    (hne : hnrs ≠ []) :
    c.processItem d item =
      some (hnrs.map (fun hn => item.clone (some "housenumber") (some (toString hn))), []) := by
  unfold HousenumberSanitizer.processItem
  rw [hk, if_pos rfl, if_pos ⟨hd, hr⟩, he]
  simp [hne]

theorem processItem_empty_range (c : HousenumberSanitizer) (d : Directive) (item : PlaceName)
    (hk : c.filter_kind item.kind = true)
    (hd : d ≠ Directive.disabled)
    (hr : rangeFullmatch item.name = true)
    (he : expandRange d item.name = some []) :
    c.processItem d item = some (c.convertOrSplit item) := by
  unfold HousenumberSanitizer.processItem
  rw [hk, if_pos rfl, if_pos ⟨hd, hr⟩, he]
  rfl

theorem processItem_no_range (c : HousenumberSanitizer) (d : Directive) (item : PlaceName)
    (hk : c.filter_kind item.kind = true)
    (hc : ¬ (d ≠ Directive.disabled ∧ rangeFullmatch item.name = true)) :
    c.processItem d item = some (c.convertOrSplit item) := by
  unfold HousenumberSanitizer.processItem
  rw [hk, if_pos rfl, if_neg hc]

theorem processItem_pass (c : HousenumberSanitizer) (d : Directive) (it : PlaceName)
    (hk : c.filter_kind it.kind = false) (hi : it.kind ≠ "interpolation") :
    c.processItem d it = some ([it], []) := by
  unfold HousenumberSanitizer.processItem
  simp [hk, hi]

theorem processItem_disabled_hn (c : HousenumberSanitizer) (it : PlaceName)
    (hk : c.filter_kind it.kind = true)
    (hn : c.filter_name it.name = false) :
    c.processItem Directive.disabled it =
      some ((c.sanitize it.name).map (fun n => it.clone (some "housenumber") (some n)), []) := by
  rw [processItem_no_range c Directive.disabled it hk (fun hc => hc.1 rfl),
    convertOrSplit_split c it hn]

theorem processItem_fix_hn (c : HousenumberSanitizer) (nm sfx : String)
    (hn : c.filter_name nm = false) (hs : c.sanitize nm = [nm]) :
    c.processItem Directive.disabled ⟨nm, "housenumber", sfx⟩ =
      some ([⟨nm, "housenumber", sfx⟩], []) := by
  by_cases hk : c.filter_kind "housenumber" = true
  · rw [processItem_disabled_hn c ⟨nm, "housenumber", sfx⟩ hk hn]
    dsimp only
    rw [hs]
    simp [PlaceName.clone]
  · have hk2 : c.filter_kind "housenumber" = false := Bool.eq_false_iff.mpr hk
    exact processItem_pass c Directive.disabled ⟨nm, "housenumber", sfx⟩ hk2
      (by show ("housenumber" : String) ≠ "interpolation"; decide)

theorem round1_item (c : HousenumberSanitizer) (it : PlaceName)
    (hki : it.kind ≠ "interpolation")
    (hh : c.filter_kind it.kind = true →
      c.filter_name it.name = false ∧ c.sanitize it.name = [it.name]) :
    ∃ A, c.processItem Directive.disabled it = some (A, []) ∧
      ∀ out ∈ A, out.kind ≠ "interpolation" ∧
        c.processItem Directive.disabled out = some ([out], []) := by
  by_cases hk : c.filter_kind it.kind = true
  · obtain ⟨hn, hs⟩ := hh hk
    refine ⟨[⟨it.name, "housenumber", it.suffix⟩], ?_, ?_⟩
    · rw [processItem_disabled_hn c it hk hn, hs]
      simp [PlaceName.clone]
    · intro out hout
      simp only [List.mem_singleton] at hout
      subst hout
      refine ⟨?_, processItem_fix_hn c it.name it.suffix hn hs⟩
      show ("housenumber" : String) ≠ "interpolation"
      decide
  · have hk2 : c.filter_kind it.kind = false := Bool.eq_false_iff.mpr hk
    refine ⟨[it], processItem_pass c Directive.disabled it hk2 hki, ?_⟩
    intro out hout
    simp only [List.mem_singleton] at hout
    subst hout
    exact ⟨hki, processItem_pass c Directive.disabled _ hk2 hki⟩

theorem round1_all (c : HousenumberSanitizer) :
    ∀ addr : List PlaceName,
      (∀ it ∈ addr, it.kind ≠ "interpolation" ∧
        (c.filter_kind it.kind = true →
          c.filter_name it.name = false ∧ c.sanitize it.name = [it.name])) →
      ∃ A, c.processAll Directive.disabled addr = some (A, []) ∧
        ∀ out ∈ A, out.kind ≠ "interpolation" ∧
          c.processItem Directive.disabled out = some ([out], []) := by
  intro addr
  induction addr with
  | nil => intro _; exact ⟨[], rfl, by simp⟩
  | cons it rest ih =>
    intro h
    obtain ⟨h1, h2⟩ := h it (List.mem_cons_self it rest)
    obtain ⟨A1, hA1, hP1⟩ := round1_item c it h1 h2
    obtain ⟨A2, hA2, hP2⟩ := ih (fun x hx => h x (List.mem_cons_of_mem _ hx))
    refine ⟨A1 ++ A2, ?_, ?_⟩
    · rw [processAll_cons, hA1, hA2]
      rfl
    · intro out hout
      rcases List.mem_append.mp hout with hm | hm
      · exact hP1 out hm
      · exact hP2 out hm

theorem sanitize_default_range (c : HousenumberSanitizer) (hcs : c.split = defaultSplit)
    (s sa sb : String) (hsplit : pySplit ['-'] s = [sa, sb])
    (hda : isDigits sa = true) (hdb : isDigits sb = true) :
    c.sanitize s = [s] := by
  obtain ⟨sep, hsep, hdata⟩ := pySplit_pair ['-'] s sa sb hsplit
  have hsep2 : sep = '-' := by simpa using hsep
  subst hsep2
  have hall : ∀ ch ∈ s.data, ch ∉ ([',', ';'] : List Char) := by
    intro ch hch hmem
    rw [hdata] at hch
    have hdig : (charDecimal ch).isSome = true ∨ ch = '-' := by
      rcases List.mem_append.mp hch with h | h
      · left
        have h2 := (Bool.and_eq_true _ _).mp hda
        exact List.all_eq_true.mp h2.2 ch h
      · rcases List.mem_cons.mp h with h2 | h2
        · right; exact h2
        · left
          have h3 := (Bool.and_eq_true _ _).mp hdb
          exact List.all_eq_true.mp h3.2 ch h2
    rcases hdig with hd | hd
    · rcases List.mem_cons.mp hmem with h3 | h3
      · subst h3; exact absurd hd (by decide)
      · rcases List.mem_cons.mp h3 with h4 | h4
        · subst h4; exact absurd hd (by decide)
        · simp at h4
    · subst hd
      exact absurd hmem (by decide)
  have hsplit2 : splitChars [',', ';'] s.data = [s.data] := splitChars_no_sep _ _ hall
  have hne : s ≠ "" := by
    intro h0
    rw [h0] at hdata
    have h1 : ([] : List Char) = sa.data ++ '-' :: sb.data := hdata
    simp at h1
  unfold HousenumberSanitizer.sanitize
  rw [hcs]
  unfold defaultSplit pySplit
  rw [hsplit2]
  show ([s].flatMap fun hnr => if hnr = "" then [] else regularize hnr) = [s]
  simp [hne, regularize]

/-! The claims. -/

/-- C1, counterexample: the transform does not always run to completion.
With the default configuration, a record holding an interpolation item
whose token is the single digit 0 and a housenumber item whose value
matches the range pattern makes `_expand_range` divide by zero, so the call
raises `ZeroDivisionError` (modelled as `none`) instead of completing. -/
theorem claim_C1_counterexample :
    cfgDefault.call ⟨[], [⟨"0", "interpolation", ""⟩, ⟨"2-4", "housenumber", ""⟩]⟩ =
      Option.none := by decide

theorem stepOf_ne_zero {d : Directive} (h : d ≠ Directive.step 0) : stepOf d ≠ 0 := by
  cases d with
  | disabled => simp [stepOf]
  | step n =>
    simp only [stepOf]
    intro h0
    subst h0
    exact h rfl
  | odd => simp [stepOf]
  | even => simp [stepOf]

/-- C1, amended: the transform runs to completion whenever (i) directive
derivation does not raise (a single digit-property token without a decimal
value makes `int` raise `ValueError`), (ii) the derived directive is not
step 0 (the token `0` makes the range division raise
`ZeroDivisionError`), and (iii) no housenumber-classified range value
drives the float division `(last + 1 - first) / step` into the double
overflow range (which raises `OverflowError`).  Each excluded case is a
runtime error of the code, so only construction and these three runtime
conditions can fail. -/
theorem claim_C1 (c : HousenumberSanitizer) (obj : ProcessInfo) (d : Directive)
    (hder : c.deriveItype? obj.address = some d)
    (hd0 : d ≠ Directive.step 0)
    (hov : ∀ item ∈ obj.address, c.filter_kind item.kind = true →
      rangeFullmatch item.name = true →
      ∀ sa sb, pySplit ['-'] item.name = [sa, sb] →
        pyDivOverflow ((strToNat sb : Int) + 1 - (adjustFirst d (strToNat sa) : Int))
          (stepOf d) = false) :
    (c.call obj).isSome = true := by
  unfold HousenumberSanitizer.call
  split
  · rfl
  · rw [hder]
    obtain ⟨⟨A, N⟩, hA⟩ := processAll_isSome c d (stepOf_ne_zero hd0) obj.address hov
    show (match c.processAll d obj.address with
      | some (addr, nms) => some (ProcessInfo.mk (obj.names ++ nms) addr)
      | Option.none => (Option.none : Option ProcessInfo)).isSome = true
    rw [hA]
    rfl

/-- C1, witness for the amended claim at a concrete input. -/
theorem claim_C1_w :
    cfgDefault.deriveItype?
        [⟨"2-6", "housenumber", "a"⟩, ⟨"odd", "interpolation", "b"⟩] =
      some Directive.odd ∧
    Directive.odd ≠ Directive.step 0 ∧
    (cfgDefault.call
        ⟨[], [⟨"2-6", "housenumber", "a"⟩, ⟨"odd", "interpolation", "b"⟩]⟩).isSome = true := by
  have hov : ∀ item ∈ ([⟨"2-6", "housenumber", "a"⟩, ⟨"odd", "interpolation", "b"⟩] :
        List PlaceName),
      cfgDefault.filter_kind item.kind = true →
      rangeFullmatch item.name = true →
      ∀ sa sb, pySplit ['-'] item.name = [sa, sb] →
        pyDivOverflow ((strToNat sb : Int) + 1 -
            (adjustFirst Directive.odd (strToNat sa) : Int))
          (stepOf Directive.odd) = false := by
    intro item hitem hk hr sa sb hsp
    rcases List.mem_cons.mp hitem with rfl | hitem2
    · have he : pySplit ['-'] "2-6" = ["2", "6"] := by decide
      have hsp2 : (["2", "6"] : List String) = [sa, sb] := by
        rw [← he]; exact hsp
      simp at hsp2
      obtain ⟨rfl, rfl⟩ := hsp2
      decide
    · rcases List.mem_cons.mp hitem2 with rfl | hitem3
      · have he : pySplit ['-'] "odd" = ["odd"] := by decide
        have hsp2 : (["odd"] : List String) = [sa, sb] := by
          rw [← he]; exact hsp
        simp at hsp2
      · simp at hitem3
  exact ⟨by decide, by decide,
    claim_C1 cfgDefault ⟨[], [⟨"2-6", "housenumber", "a"⟩, ⟨"odd", "interpolation", "b"⟩]⟩
      Directive.odd (by decide) (by decide) hov⟩

/-- C4, counterexample: an interpolation item is not dropped
unconditionally.  When the configured filter-kind predicate also matches
the kind `interpolation` (here: a predicate matching every kind), the
interpolation item is processed as a housenumber candidate and its clone
reaches the rebuilt address sequence instead of being dropped. -/
theorem claim_C4_counterexample :
    cfgAllKinds.call ⟨[], [⟨"odd", "interpolation", "i"⟩]⟩ =
        some ⟨[], [⟨"odd", "housenumber", "i"⟩]⟩ ∧
      ([⟨"odd", "housenumber", "i"⟩] : List PlaceName) ≠ [] := by
  constructor
  · decide
  · decide

/-- C4, amended: an original address item of kind `interpolation` is
dropped from the rebuilt address sequence (and contributes nothing to
names) whenever the configured filter-kind predicate does not match the
kind `interpolation`; when it does match, the item is processed as a
housenumber candidate instead. -/
theorem claim_C4 (c : HousenumberSanitizer) (d : Directive) (item : PlaceName)
    (hkind : item.kind = "interpolation")
    (hf : c.filter_kind "interpolation" = false) :
    c.processItem d item = some ([], []) := by
  unfold HousenumberSanitizer.processItem
  rw [hkind, hf]
  simp

/-- C4, witness for the amended claim at a concrete input. -/
theorem claim_C4_w :
    (⟨"12-14", "interpolation", "i"⟩ : PlaceName).kind = "interpolation" ∧
      cfgDefault.filter_kind "interpolation" = false ∧
      cfgDefault.processItem Directive.odd ⟨"12-14", "interpolation", "i"⟩ = some ([], []) :=
  ⟨rfl, by decide,
    claim_C4 cfgDefault Directive.odd ⟨"12-14", "interpolation", "i"⟩ rfl (by decide)⟩

/-- C5: for every record and every configuration, when the transform
returns, the resulting address sequence contains no item of kind
`interpolation`. -/
theorem claim_C5 (c : HousenumberSanitizer) (obj o1 : ProcessInfo)
    (h : c.call obj = some o1) :
    ∀ it ∈ o1.address, it.kind ≠ "interpolation" := by
  rcases call_eq_some c obj o1 h with ⟨he, rfl⟩ | ⟨d0, A, N, hder, hp, rfl⟩
  · intro it hit
    rw [he] at hit
    simp at hit
  · intro it hit
    exact processAll_addr_kinds c d0 obj.address A N hp it hit

/-- C5, witness at a concrete input. -/
theorem claim_C5_w :
    cfgDefault.call ⟨[], [⟨"3", "housenumber", "a"⟩, ⟨"even", "interpolation", "b"⟩]⟩ =
        some ⟨[], [⟨"3", "housenumber", "a"⟩]⟩ ∧
      ∀ it ∈ (⟨[], [⟨"3", "housenumber", "a"⟩]⟩ : ProcessInfo).address,
        it.kind ≠ "interpolation" :=
  ⟨by decide,
    claim_C5 cfgDefault ⟨[], [⟨"3", "housenumber", "a"⟩, ⟨"even", "interpolation", "b"⟩]⟩
      ⟨[], [⟨"3", "housenumber", "a"⟩]⟩ (by decide)⟩

/-- C10: whenever range expansion succeeds on a housenumber-classified
range value, the emitted items carry the canonical decimal string of each
computed integer (`toString`), not substrings of the original value, so
leading zeros of the endpoints are not preserved. -/
theorem claim_C10 (c : HousenumberSanitizer) (d : Directive) (item : PlaceName)
    (l : List Nat)
    (hk : c.filter_kind item.kind = true)
    (hd : d ≠ Directive.disabled)
    (hr : rangeFullmatch item.name = true)
    (he : expandRange d item.name = some l)
    (hne : l ≠ []) :
    c.processItem d item =
      some (l.map (fun hn => item.clone (some "housenumber") (some (toString hn))), []) :=
  processItem_range c d item l hk hd hr he hne

/-- C10, witness: the value 008-010 under a step-1 directive expands to the
integers 8, 9, 10 and the emitted values are 8, 9, 10 — the leading zeros
of the endpoints are dropped. -/
theorem claim_C10_w :
    expandRange (Directive.step 1) "008-010" = some [8, 9, 10] ∧
      cfgDefault.processItem (Directive.step 1) ⟨"008-010", "housenumber", "z"⟩ =
        some ([⟨"8", "housenumber", "z"⟩, ⟨"9", "housenumber", "z"⟩,
          ⟨"10", "housenumber", "z"⟩], []) := by
  refine ⟨by decide, ?_⟩
  have h := claim_C10 cfgDefault (Directive.step 1) ⟨"008-010", "housenumber", "z"⟩ [8, 9, 10]
    (by decide) (by decide) (by decide) (by decide) (by decide)
  exact h.trans (by decide)

/-- C6: a housenumber-classified item that is not range-expanded and whose
value matches the convert-to-name predicate is emitted as exactly one item
of kind `housenumber` (value and opaque attributes copied) into the names
sequence with nothing added to the address sequence; record-wide, the
transform only appends to the names sequence, so every pre-existing entry
keeps its position. -/
theorem claim_C6 (c : HousenumberSanitizer) (d : Directive) (item : PlaceName)
    (hk : c.filter_kind item.kind = true)
    (hn : c.filter_name item.name = true)
    (hno : d ≠ Directive.disabled → rangeFullmatch item.name = true →
      expandRange d item.name = some []) :
    c.processItem d item = some ([], [⟨item.name, "housenumber", item.suffix⟩]) ∧
    ∀ obj o1, c.call obj = some o1 → ∃ app, o1.names = obj.names ++ app := by
  constructor
  · by_cases hc : d ≠ Directive.disabled ∧ rangeFullmatch item.name = true
    · rw [processItem_empty_range c d item hk hc.1 hc.2 (hno hc.1 hc.2),
        convertOrSplit_name c item hn]
    · rw [processItem_no_range c d item hk hc, convertOrSplit_name c item hn]
  · intro obj o1 h
    rcases call_eq_some c obj o1 h with ⟨-, rfl⟩ | ⟨d0, A, N, -, -, rfl⟩
    · exact ⟨[], (List.append_nil _).symm⟩
    · exact ⟨N, rfl⟩

/-- C6, witness at a concrete input. -/
theorem claim_C6_w :
    cfgConvert.filter_kind "housenumber" = true ∧
    cfgConvert.filter_name "private" = true ∧
    cfgConvert.processItem Directive.disabled ⟨"private", "housenumber", "s"⟩ =
        some ([], [⟨"private", "housenumber", "s"⟩]) ∧
    ∀ obj o1, cfgConvert.call obj = some o1 → ∃ app, o1.names = obj.names ++ app := by
  have h := claim_C6 cfgConvert Directive.disabled ⟨"private", "housenumber", "s"⟩
    (by decide) (by decide) (fun hd _ => absurd rfl hd)
  exact ⟨by decide, by decide, h.1, h.2⟩

/-- C7: the rebuilt address sequence is the in-order concatenation of one
block per original item; an item whose kind is neither
housenumber-classified nor `interpolation` yields exactly the singleton
block holding itself unchanged, so such items appear unchanged, in their
original relative order, and items emitted for a housenumber-classified
source item occupy that source item's position relative to them. -/
theorem claim_C7 (c : HousenumberSanitizer) (obj o1 : ProcessInfo)
    (h : c.call obj = some o1) :
    ∃ L : List (List PlaceName),
      o1.address = L.flatten ∧
      List.Forall₂ (fun it l =>
        (∃ nm, c.processItem (c.deriveItype obj.address) it = some (l, nm)) ∧
        (c.filter_kind it.kind = false → it.kind ≠ "interpolation" → l = [it]))
        obj.address L := by
  rcases call_eq_some c obj o1 h with ⟨he, rfl⟩ | ⟨d0, A, N, hder, hp, rfl⟩
  · refine ⟨[], by rw [he]; rfl, ?_⟩
    rw [he]
    exact List.Forall₂.nil
  · have hde : c.deriveItype obj.address = d0 := by
      unfold HousenumberSanitizer.deriveItype
      rw [hder]
      rfl
    rw [hde]
    obtain ⟨L, hL1, hL2⟩ := processAll_flatten c d0 obj.address A N hp
    refine ⟨L, hL1, ?_⟩
    refine hL2.imp ?_
    intro it l hr
    refine ⟨hr, ?_⟩
    intro hkf hki
    obtain ⟨nm, hnm⟩ := hr
    rw [processItem_pass c _ it hkf hki] at hnm
    exact pair_eq_fst (Option.some.inj hnm)

/-- C7, witness at a concrete input. -/
theorem claim_C7_w :
    cfgDefault.call ⟨[], [⟨"1", "street", "s"⟩, ⟨"2;4", "housenumber", "h"⟩]⟩ =
        some ⟨[], [⟨"1", "street", "s"⟩, ⟨"2", "housenumber", "h"⟩,
          ⟨"4", "housenumber", "h"⟩]⟩ ∧
    ∃ L : List (List PlaceName),
      (⟨[], [⟨"1", "street", "s"⟩, ⟨"2", "housenumber", "h"⟩,
          ⟨"4", "housenumber", "h"⟩]⟩ : ProcessInfo).address = L.flatten ∧
      List.Forall₂ (fun it l =>
        (∃ nm, cfgDefault.processItem
            (cfgDefault.deriveItype
              (⟨[], [⟨"1", "street", "s"⟩, ⟨"2;4", "housenumber", "h"⟩]⟩ :
                ProcessInfo).address) it = some (l, nm)) ∧
        (cfgDefault.filter_kind it.kind = false → it.kind ≠ "interpolation" → l = [it]))
        (⟨[], [⟨"1", "street", "s"⟩, ⟨"2;4", "housenumber", "h"⟩]⟩ : ProcessInfo).address L :=
  ⟨by decide,
    claim_C7 cfgDefault ⟨[], [⟨"1", "street", "s"⟩, ⟨"2;4", "housenumber", "h"⟩]⟩
      ⟨[], [⟨"1", "street", "s"⟩, ⟨"2", "housenumber", "h"⟩, ⟨"4", "housenumber", "h"⟩]⟩
      (by decide)⟩

theorem expandRange_of_small (d : Directive) (item : PlaceName)
    (sa sb : String)
    (hsplit : pySplit ['-'] item.name = [sa, sb])
    (hstep : 0 < stepOf d)
    (hov : pyDivOverflow ((strToNat sb : Int) + 1 - (adjustFirst d (strToNat sa) : Int))
      (stepOf d) = false)
    (hcnt : mkRat ((strToNat sb : Int) + 1 - (adjustFirst d (strToNat sa) : Int)) (stepOf d)
      < 10) :
    expandRange d item.name =
      some (rangeList (adjustFirst d (strToNat sa)) (strToNat sb + 1) (stepOf d)) := by
  unfold expandRange
  rw [hsplit]
  show (if stepOf d = 0 then Option.none
    else if pyDivOverflow ((strToNat sb : Int) + 1 - (adjustFirst d (strToNat sa) : Int))
        (stepOf d)
      then Option.none
    else if mkRat ((strToNat sb : Int) + 1 - (adjustFirst d (strToNat sa) : Int)) (stepOf d) < 10
      then some (rangeList (adjustFirst d (strToNat sa)) (strToNat sb + 1) (stepOf d))
      else some []) = _
  rw [if_neg (by omega), if_neg (by simp [hov]), if_pos hcnt]

theorem expandRange_of_large (d : Directive) (item : PlaceName)
    (sa sb : String)
    (hsplit : pySplit ['-'] item.name = [sa, sb])
    (hstep : 0 < stepOf d)
    (hov : pyDivOverflow ((strToNat sb : Int) + 1 - (adjustFirst d (strToNat sa) : Int))
      (stepOf d) = false)
    (hcnt : ¬ mkRat ((strToNat sb : Int) + 1 - (adjustFirst d (strToNat sa) : Int)) (stepOf d)
      < 10) :
    expandRange d item.name = some [] := by
  unfold expandRange
  rw [hsplit]
  show (if stepOf d = 0 then Option.none
    else if pyDivOverflow ((strToNat sb : Int) + 1 - (adjustFirst d (strToNat sa) : Int))
        (stepOf d)
      then Option.none
    else if mkRat ((strToNat sb : Int) + 1 - (adjustFirst d (strToNat sa) : Int)) (stepOf d) < 10
      then some (rangeList (adjustFirst d (strToNat sa)) (strToNat sb + 1) (stepOf d))
      else some []) = _
  rw [if_neg (by omega), if_neg (by simp [hov]), if_neg hcnt]

theorem rangeFullmatch_of_split (s sa sb : String)
    (hsplit : pySplit ['-'] s = [sa, sb])
    (hda : isDigits sa = true) (hdb : isDigits sb = true) :
    rangeFullmatch s = true := by
  unfold rangeFullmatch
  rw [hsplit]
  simp [hda, hdb]

/-- C2, counterexample for the quantification over every non-disabled
directive and every range-matching value: under the non-disabled step-0
directive a range-matching housenumber item is neither expanded nor passed
to the name-reclassification/splitting tail — the iteration raises
`ZeroDivisionError`; and under a step-1 directive an ascending range with
a 310-digit last endpoint raises `OverflowError` in the float division, so
the claimed two-way outcome again does not occur. -/
theorem claim_C2_counterexample :
    (Directive.step 0 ≠ Directive.disabled ∧
      rangeFullmatch "2-4" = true ∧
      cfgDefault.filter_kind "housenumber" = true ∧
      cfgDefault.processItem (Directive.step 0) ⟨"2-4", "housenumber", ""⟩ = Option.none) ∧
    (Directive.step 1 ≠ Directive.disabled ∧
      rangeFullmatch bigRangeAsc = true ∧
      cfgDefault.processItem (Directive.step 1) ⟨bigRangeAsc, "housenumber", ""⟩ =
        Option.none) :=
  ⟨⟨by decide, by decide, by decide, by decide⟩, by decide, by decide, by decide⟩

/-- C2, amended: restricted to non-disabled directives whose step is
positive (the step-0 directive raises `ZeroDivisionError`) and at most 9 —
the only steps the program ever derives, and the range in which the code's
float comparison against 10 agrees with the exact rational one — and to
endpoints whose quotient stays below the float overflow bound (otherwise
the division raises `OverflowError`).  For a housenumber-classified item
fully matching digits-hyphen-digits and such a directive:
under parity `even` an odd first endpoint (and under `odd` an even one) is
incremented; with the count `(last + 1 - first) / step` taken as exact
real-valued division, a count below 10 makes the expansion produce exactly
the strictly ascending integers `first, first + step, …` not exceeding
`last`, each emitted as a fresh kind-`housenumber` item carrying the
decimal string of the integer with the other attributes copied; a count of
at least 10 makes the expansion yield the empty sequence, and the item
falls through to the name-reclassification/splitting tail as a single
unexpanded token. -/
theorem claim_C2 (c : HousenumberSanitizer) (d : Directive) (item : PlaceName)
    (sa sb : String)
    (hk : c.filter_kind item.kind = true)
    (hd : d ≠ Directive.disabled)
    (hsplit : pySplit ['-'] item.name = [sa, sb])
    (hda : isDigits sa = true) (hdb : isDigits sb = true)
    (hstep : 0 < stepOf d) (hstep9 : stepOf d ≤ 9)
    (hov : pyDivOverflow ((strToNat sb : Int) + 1 - (adjustFirst d (strToNat sa) : Int))
      (stepOf d) = false) :
    ((d = Directive.even ∧ strToNat sa % 2 = 1) ∨
        (d = Directive.odd ∧ strToNat sa % 2 = 0) →
      adjustFirst d (strToNat sa) = strToNat sa + 1) ∧
    (mkRat ((strToNat sb : Int) + 1 - (adjustFirst d (strToNat sa) : Int)) (stepOf d) < 10 →
      ∃ hnrs, expandRange d item.name = some hnrs ∧
        hnrs.Pairwise (· < ·) ∧
        (∀ x, x ∈ hnrs ↔
          ∃ k, x = adjustFirst d (strToNat sa) + k * stepOf d ∧ x ≤ strToNat sb) ∧
        (hnrs ≠ [] →
          c.processItem d item =
            some (hnrs.map (fun hn => item.clone (some "housenumber") (some (toString hn))),
              []))) ∧
    (¬ mkRat ((strToNat sb : Int) + 1 - (adjustFirst d (strToNat sa) : Int)) (stepOf d) < 10 →
      expandRange d item.name = some [] ∧
      c.processItem d item = some (c.convertOrSplit item)) := by
  have hrange : rangeFullmatch item.name = true := rangeFullmatch_of_split item.name sa sb
    hsplit hda hdb
  refine ⟨?_, ?_, ?_⟩
  · rintro (⟨rfl, hp⟩ | ⟨rfl, hp⟩)
    · unfold adjustFirst
      rw [if_pos hp]
    · unfold adjustFirst
      rw [if_pos hp]
  · intro hcnt
    refine ⟨rangeList (adjustFirst d (strToNat sa)) (strToNat sb + 1) (stepOf d),
      expandRange_of_small d item sa sb hsplit hstep hov hcnt, rangeList_pairwise hstep,
      ?_, ?_⟩
    · intro x
      rw [mem_rangeList hstep]
      constructor
      · rintro ⟨i, rfl, hlt⟩
        exact ⟨i, rfl, by omega⟩
      · rintro ⟨i, rfl, hle⟩
        exact ⟨i, rfl, by omega⟩
    · intro hne
      exact processItem_range c d item _ hk hd hrange
        (expandRange_of_small d item sa sb hsplit hstep hov hcnt) hne
  · intro hcnt
    have he := expandRange_of_large d item sa sb hsplit hstep hov hcnt
    exact ⟨he, processItem_empty_range c d item hk hd hrange he⟩

/-- C2, witness: the range 11-16 under the parity directive `even`, with
the first endpoint adjusted from 11 to 12. -/
theorem claim_C2_w :
    cfgDefault.filter_kind "housenumber" = true ∧
    Directive.even ≠ Directive.disabled ∧
    pySplit ['-'] "11-16" = ["11", "16"] ∧
    isDigits "11" = true ∧
    isDigits "16" = true ∧
    0 < stepOf Directive.even ∧
    stepOf Directive.even ≤ 9 ∧
    pyDivOverflow ((strToNat "16" : Int) + 1 -
        (adjustFirst Directive.even (strToNat "11") : Int))
      (stepOf Directive.even) = false ∧
    (((Directive.even = Directive.even ∧ strToNat "11" % 2 = 1) ∨
        (Directive.even = Directive.odd ∧ strToNat "11" % 2 = 0) →
      adjustFirst Directive.even (strToNat "11") = strToNat "11" + 1) ∧
    (mkRat ((strToNat "16" : Int) + 1 - (adjustFirst Directive.even (strToNat "11") : Int))
        (stepOf Directive.even) < 10 →
      ∃ hnrs, expandRange Directive.even "11-16" = some hnrs ∧
        hnrs.Pairwise (· < ·) ∧
        (∀ x, x ∈ hnrs ↔
          ∃ k, x = adjustFirst Directive.even (strToNat "11") + k * stepOf Directive.even ∧
            x ≤ strToNat "16") ∧
        (hnrs ≠ [] →
          cfgDefault.processItem Directive.even ⟨"11-16", "housenumber", "w"⟩ =
            some (hnrs.map (fun hn =>
              (⟨"11-16", "housenumber", "w"⟩ : PlaceName).clone
                (some "housenumber") (some (toString hn))), []))) ∧
    (¬ mkRat ((strToNat "16" : Int) + 1 - (adjustFirst Directive.even (strToNat "11") : Int))
        (stepOf Directive.even) < 10 →
      expandRange Directive.even "11-16" = some [] ∧
      cfgDefault.processItem Directive.even ⟨"11-16", "housenumber", "w"⟩ =
        some (cfgDefault.convertOrSplit ⟨"11-16", "housenumber", "w"⟩))) :=
  ⟨by decide, by decide, by decide, by decide, by decide, by decide, by decide, by decide,
    claim_C2 cfgDefault Directive.even ⟨"11-16", "housenumber", "w"⟩ "11" "16"
      (by decide) (by decide) (by decide) (by decide) (by decide) (by decide) (by decide)
      (by decide)⟩

theorem deriveItype_resolve (c : HousenumberSanitizer) (addr : List PlaceName) (t : String)
    (he : c.expand_interpolations = true)
    (ht : firstInterpolationToken addr = some t) :
    c.deriveItype? addr = resolveItype t := by
  unfold HousenumberSanitizer.deriveItype?
  simp [he, ht]

theorem mk_singleton_ne_all (ch : Char) : String.mk [ch] ≠ "all" := by
  intro hcontra
  have h2 : [ch] = ("all").data := congrArg String.data hcontra
  have h3 : ("all").data = ['a', 'l', 'l'] := rfl
  rw [h3] at h2
  simp at h2

theorem resolveItype_single (ch : Char) (hdig : pyCharIsDigit ch = true) :
    resolveItype (String.mk [ch]) = (pyInt? (String.mk [ch])).map Directive.step := by
  unfold resolveItype
  rw [if_neg (mk_singleton_ne_all ch), if_pos ?hg]
  case hg =>
    show ((String.mk [ch]).length == 1 && pyStrIsDigit (String.mk [ch])) = true
    have h1 : ((String.mk [ch]).length == 1) = true := rfl
    rw [h1]
    unfold pyStrIsDigit
    simp [hdig]

/-- C3, counterexample: the code does not disable every single character
that is not an ASCII digit.  The Arabic-Indic digit five (a single
character, not an ASCII digit) satisfies `str.isdigit` and has decimal
value 5, so the directive resolves to step 5; and the superscript two
(also a single non-ASCII-digit character) satisfies `str.isdigit` but has
no decimal value, so `int` raises `ValueError` — neither resolves to
disabled. -/
theorem claim_C3_counterexample :
    ("٥" : String).length = 1 ∧
    (∀ ch ∈ ("٥" : String).data, ch.isDigit = false) ∧
    cfgDefault.deriveItype? [⟨"٥", "interpolation", "i"⟩] = some (Directive.step 5) ∧
    ("²" : String).length = 1 ∧
    (∀ ch ∈ ("²" : String).data, ch.isDigit = false) ∧
    cfgDefault.deriveItype? [⟨"²", "interpolation", "i"⟩] = Option.none := by
  refine ⟨by decide, by decide, by decide, by decide, by decide, by decide⟩

/-- C3, amended: with expansion enabled, the directive derived from the
value token of the first interpolation item is step 1 for the token
`all`; step `v` for a token that is exactly one character with Unicode
decimal value `v` (ASCII or not); a raised `ValueError` for a single
digit-property character without a decimal value; the parity directives
for `odd` and `even`; and disabled for every other token — multi-digit
tokens and single characters without the digit property. -/
theorem claim_C3 (c : HousenumberSanitizer) (addr : List PlaceName) (t : String)
    (he : c.expand_interpolations = true)
    (ht : firstInterpolationToken addr = some t) :
    (t = "all" → c.deriveItype? addr = some (Directive.step 1)) ∧
    (∀ ch : Char, ∀ v : Nat, t = String.mk [ch] → charDecimal ch = some v →
      c.deriveItype? addr = some (Directive.step v)) ∧
    (∀ ch : Char, t = String.mk [ch] → pyCharIsDigit ch = true →
      charDecimal ch = Option.none → c.deriveItype? addr = Option.none) ∧
    (t = "odd" → c.deriveItype? addr = some Directive.odd) ∧
    (t = "even" → c.deriveItype? addr = some Directive.even) ∧
    (t ≠ "all" → t ≠ "odd" → t ≠ "even" →
      (∀ ch : Char, t = String.mk [ch] → pyCharIsDigit ch = false) →
      c.deriveItype? addr = some Directive.disabled) := by
  have hres := deriveItype_resolve c addr t he ht
  refine ⟨?_, ?_, ?_, ?_, ?_, ?_⟩
  · rintro rfl
    rw [hres]
    decide
  · intro ch v hch hv
    subst hch
    rw [hres, resolveItype_single ch (by unfold pyCharIsDigit; simp [hv])]
    have hdd : isDigits (String.mk [ch]) = true := by
      unfold isDigits
      simp [hv]
    unfold pyInt?
    rw [if_pos hdd]
    unfold strToNat
    show some (Directive.step (0 * 10 + (charDecimal ch).getD 0)) = some (Directive.step v)
    rw [hv]
    simp
  · intro ch hch hdig hnone
    subst hch
    rw [hres, resolveItype_single ch hdig]
    have hdd : isDigits (String.mk [ch]) = false := by
      unfold isDigits
      simp [hnone]
    unfold pyInt?
    rw [if_neg (by simp [hdd])]
    rfl
  · rintro rfl
    rw [hres]
    decide
  · rintro rfl
    rw [hres]
    decide
  · intro h1 h2 h3 h4
    rw [hres]
    unfold resolveItype
    rw [if_neg h1]
    rw [if_neg ?hnd]
    case hnd =>
      intro hcontra
      rw [Bool.and_eq_true] at hcontra
      obtain ⟨hl, hdg⟩ := hcontra
      rw [beq_iff_eq] at hl
      have hl2 : t.data.length = 1 := hl
      obtain ⟨ch, hch⟩ : ∃ ch, t.data = [ch] := by
        cases hd2 : t.data with
        | nil => rw [hd2] at hl2; simp at hl2
        | cons x xs =>
          cases xs with
          | nil => exact ⟨x, rfl⟩
          | cons y ys => rw [hd2] at hl2; simp at hl2
      have ht2 : t = String.mk [ch] := by rw [← hch]
      have h5 := h4 ch ht2
      unfold pyStrIsDigit at hdg
      rw [hch] at hdg
      simp [h5] at hdg
    rw [if_neg h2, if_neg h3]

/-- C3, witness at a concrete input: token 7 resolves to step 7. -/
theorem claim_C3_w :
    cfgDefault.expand_interpolations = true ∧
    firstInterpolationToken [⟨"7", "interpolation", "i"⟩] = some "7" ∧
    (("7" : String) = "all" →
      cfgDefault.deriveItype? [⟨"7", "interpolation", "i"⟩] = some (Directive.step 1)) ∧
    (∀ ch : Char, ∀ v : Nat, ("7" : String) = String.mk [ch] → charDecimal ch = some v →
      cfgDefault.deriveItype? [⟨"7", "interpolation", "i"⟩] = some (Directive.step v)) ∧
    (∀ ch : Char, ("7" : String) = String.mk [ch] → pyCharIsDigit ch = true →
      charDecimal ch = Option.none →
      cfgDefault.deriveItype? [⟨"7", "interpolation", "i"⟩] = Option.none) ∧
    (("7" : String) = "odd" →
      cfgDefault.deriveItype? [⟨"7", "interpolation", "i"⟩] = some Directive.odd) ∧
    (("7" : String) = "even" →
      cfgDefault.deriveItype? [⟨"7", "interpolation", "i"⟩] = some Directive.even) ∧
    (("7" : String) ≠ "all" → ("7" : String) ≠ "odd" → ("7" : String) ≠ "even" →
      (∀ ch : Char, ("7" : String) = String.mk [ch] → pyCharIsDigit ch = false) →
      cfgDefault.deriveItype? [⟨"7", "interpolation", "i"⟩] = some Directive.disabled) := by
  have h := claim_C3 cfgDefault [⟨"7", "interpolation", "i"⟩] "7" (by decide) (by decide)
  exact ⟨by decide, by decide, h.1, h.2.1, h.2.2.1, h.2.2.2.1, h.2.2.2.2.1, h.2.2.2.2.2⟩

theorem call_fixpoint (c : HousenumberSanitizer) (o : ProcessInfo)
    (hfix : ∀ it ∈ o.address, it.kind ≠ "interpolation" ∧
      c.processItem Directive.disabled it = some ([it], [])) :
    c.call o = some o := by
  unfold HousenumberSanitizer.call
  by_cases h0 : o.address = []
  · rw [if_pos h0]
  · rw [if_neg h0]
    rw [deriveItype_of_no_interp c o.address (fun it hit => (hfix it hit).1)]
    show (match c.processAll Directive.disabled o.address with
      | some (addr, nms) => some { names := o.names ++ nms, address := addr }
      | Option.none => (Option.none : Option ProcessInfo)) = some o
    rw [processAll_fixpoint c Directive.disabled o.address (fun it hit => (hfix it hit).2)]
    show some ({ names := o.names ++ [], address := o.address } : ProcessInfo) = some o
    rw [List.append_nil]

/-- C8: a record whose address holds only single-token, non-range,
non-name-matching housenumber values plus items of unrelated kinds and no
interpolation item is left unchanged by a second application of the
transform: the result of the first application is a fixed point of the
transform. -/
theorem claim_C8 (c : HousenumberSanitizer) (obj : ProcessInfo)
    (hyp : ∀ it ∈ obj.address, it.kind ≠ "interpolation" ∧
      (c.filter_kind it.kind = true →
        c.filter_name it.name = false ∧ rangeFullmatch it.name = false ∧
          c.sanitize it.name = [it.name]))
    (o1 : ProcessInfo) (h1 : c.call obj = some o1) :
    c.call o1 = some o1 := by
  have hyp2 : ∀ it ∈ obj.address, it.kind ≠ "interpolation" ∧
      (c.filter_kind it.kind = true →
        c.filter_name it.name = false ∧ c.sanitize it.name = [it.name]) :=
    fun it hit => ⟨(hyp it hit).1,
      fun hk => ⟨((hyp it hit).2 hk).1, ((hyp it hit).2 hk).2.2⟩⟩
  have hd1 : c.deriveItype? obj.address = some Directive.disabled :=
    deriveItype_of_no_interp c obj.address (fun it hit => (hyp it hit).1)
  rcases call_eq_some c obj o1 h1 with ⟨he, rfl⟩ | ⟨d0, A0, N0, hder, hp, rfl⟩
  · unfold HousenumberSanitizer.call
    rw [if_pos he]
  · rw [hd1] at hder
    obtain rfl := Option.some.inj hder
    obtain ⟨A, hA, hfix⟩ := round1_all c obj.address hyp2
    rw [hA] at hp
    have hAA := Option.some.inj hp
    have h1a := pair_eq_fst hAA
    have h1b := pair_eq_snd hAA
    subst h1a
    subst h1b
    exact call_fixpoint c _ (fun it hit => hfix it hit)

/-- C8, witness at a concrete input: the first application reclassifies the
kind, the second application is the identity. -/
theorem claim_C8_w :
    (∀ it ∈ (⟨[], [⟨"Main", "street", "y"⟩]⟩ : ProcessInfo).address,
      it.kind ≠ "interpolation" ∧
      (cfgAllKinds.filter_kind it.kind = true →
        cfgAllKinds.filter_name it.name = false ∧ rangeFullmatch it.name = false ∧
          cfgAllKinds.sanitize it.name = [it.name])) ∧
    cfgAllKinds.call ⟨[], [⟨"Main", "street", "y"⟩]⟩ =
        some ⟨[], [⟨"Main", "housenumber", "y"⟩]⟩ ∧
    cfgAllKinds.call ⟨[], [⟨"Main", "housenumber", "y"⟩]⟩ =
        some ⟨[], [⟨"Main", "housenumber", "y"⟩]⟩ :=
  ⟨by decide, by decide,
    claim_C8 cfgAllKinds ⟨[], [⟨"Main", "street", "y"⟩]⟩ (by decide)
      ⟨[], [⟨"Main", "housenumber", "y"⟩]⟩ (by decide)⟩

/-- C9, counterexample: a descending range whose first endpoint has 310
digits does not fall through as a single unchanged token — the float
division raises `OverflowError` before the empty expansion is produced, so
the iteration neither emits the token nor anything else. -/
theorem claim_C9_counterexample :
    strToNat "5" < adjustFirst (Directive.step 1) (strToNat bigEndpoint) ∧
    rangeFullmatch bigRangeDesc = true ∧
    cfgDefault.processItem (Directive.step 1) ⟨bigRangeDesc, "housenumber", ""⟩ =
      Option.none := by
  refine ⟨by decide, by decide, by decide⟩

/-- C9, amended: restricted to directives with step between 1 and 9 (the
steps the program derives) and endpoints whose quotient stays below the
float overflow bound.  A housenumber-classified range value whose first
endpoint exceeds the last endpoint after parity adjustment then expands to
the empty sequence; the item falls through to the
name-reclassification/splitting tail and, under the default delimiters, is
emitted as a single unchanged token. -/
theorem claim_C9 (c : HousenumberSanitizer) (d : Directive) (item : PlaceName)
    (sa sb : String)
    (hk : c.filter_kind item.kind = true)
    (hnm : c.filter_name item.name = false)
    (hcs : c.split = defaultSplit)
    (hd : d ≠ Directive.disabled)
    (hstep : 0 < stepOf d) (hstep9 : stepOf d ≤ 9)
    (hov : pyDivOverflow ((strToNat sb : Int) + 1 - (adjustFirst d (strToNat sa) : Int))
      (stepOf d) = false)
    (hsplit : pySplit ['-'] item.name = [sa, sb])
    (hda : isDigits sa = true) (hdb : isDigits sb = true)
    (hdesc : strToNat sb < adjustFirst d (strToNat sa)) :
    expandRange d item.name = some [] ∧
    c.processItem d item = some ([item.clone (some "housenumber") (some item.name)], []) := by
  have hrange : rangeFullmatch item.name = true :=
    rangeFullmatch_of_split item.name sa sb hsplit hda hdb
  have hcnt : mkRat ((strToNat sb : Int) + 1 - (adjustFirst d (strToNat sa) : Int))
      (stepOf d) < 10 := by
    rw [Rat.mkRat_eq_div]
    have hnum : (strToNat sb : Int) + 1 - (adjustFirst d (strToNat sa) : Int) ≤ 0 := by
      omega
    have hdiv : (((strToNat sb : Int) + 1 - (adjustFirst d (strToNat sa) : Int) : Int) : ℚ) /
        ((stepOf d : Nat) : ℚ) ≤ 0 :=
      div_nonpos_of_nonpos_of_nonneg (by exact_mod_cast hnum) (by positivity)
    linarith
  have he : expandRange d item.name = some [] := by
    rw [expandRange_of_small d item sa sb hsplit hstep hov hcnt,
      rangeList_eq_nil (by omega)]
  refine ⟨he, ?_⟩
  rw [processItem_empty_range c d item hk hd hrange he, convertOrSplit_split c item hnm,
    sanitize_default_range c hcs item.name sa sb hsplit hda hdb]
  rfl

/-- C9, witness: the descending range 16-12 under a step-1 directive. -/
theorem claim_C9_w :
    expandRange (Directive.step 1) "16-12" = some [] ∧
    cfgDefault.processItem (Directive.step 1) ⟨"16-12", "housenumber", "w"⟩ =
      some ([(⟨"16-12", "housenumber", "w"⟩ : PlaceName).clone
        (some "housenumber") (some "16-12")], []) := by
  have h := claim_C9 cfgDefault (Directive.step 1) ⟨"16-12", "housenumber", "w"⟩ "16" "12"
    (by decide) (by decide) rfl (by decide) (by decide) (by decide) (by decide) (by decide)
    (by decide) (by decide) (by decide)
  exact h
